import Mathlib

/-!
Verification development for the canid repository (britram/canid), a caching
network-information daemon. The definitions below are a shallow embedding of
the Go source: Go maps become association lists, `time.Time` becomes integer
Unix seconds (the code compares `int(time.Since(t).Seconds()) > expiry`,
which on integer-second timestamps is `now - t > expiry`), and the external
world (HTTP responses from RIPEstat, DNS resolution) is passed in as explicit
outcome values, since the code consumes each outcome exactly once per call.
-/

namespace Canid

deriving instance DecidableEq for Except

/-- Association-list model of a Go `map[string]V` read `m[k]`. -/
def alookup {α : Type} : List (String × α) → String → Option α
  | [], _ => none
  | (k, v) :: rest, key => if k = key then some v else alookup rest key

/-- Association-list model of Go `delete(m, k)`. -/
def aerase {α : Type} : List (String × α) → String → List (String × α)
  | [], _ => []
  | (k, v) :: rest, key =>
    if k = key then aerase rest key else (k, v) :: aerase rest key

/-- Association-list model of Go `m[k] = v` (insert or replace). -/
def ainsert {α : Type} (m : List (String × α)) (key : String) (v : α) :
    List (String × α) :=
  (key, v) :: aerase m key

/-- `PrefixInfo` from the source: one cached record about a routed prefix.
`Cached` is the `time.Time` stamp, modelled as integer Unix seconds. -/
structure PrefixInfo where
  Prefix : String
  ASN : Int
  CountryCode : String
  Cached : Int
deriving DecidableEq

/-- The `Block` sub-struct of `RipeStatResponse.Data` (ripestat.go). -/
structure RipeStatBlock where
  Resource : String
deriving DecidableEq

/-- The `Data` part of `RipeStatResponse` (ripestat.go): `ASNs` is the list
of AS numbers (each Go element is a struct with one `ASN` field), `Locations`
the list of country codes (each a struct with one `Country` field). -/
structure RipeStatData where
  Resource : String
  Is_Less_Specific : Bool
  ASNs : List Int
  Locations : List String
  Block : RipeStatBlock
deriving DecidableEq

/-- `RipeStatResponse` from ripestat.go. -/
structure RipeStatResponse where
  Status : String
  Data : RipeStatData
deriving DecidableEq

/-- Outcome of one HTTP round trip in `callRipestat`: transport failure
(`http.Get` error), JSON decode failure, or a decoded document. -/
inductive RipeOutcome where
  | netError (msg : String)
  | decodeError (msg : String)
  | response (doc : RipeStatResponse)
deriving DecidableEq

/-- `callRipestat` from ripestat.go, given the outcome of its HTTP call.
The Go function mutates `out *PrefixInfo`; here the updated record is
returned on success, and on any error path the caller's record is unchanged
(the Go code returns before touching `out`). The merge mirrors the source:
`Prefix` is stored only if currently empty (choosing `Data.Resource` when
`Is_Less_Specific`, else `Data.Block.Resource`); the first ASN of the
response, if any, is assigned unconditionally; likewise the first country. -/
def callRipestat (o : RipeOutcome) (out : PrefixInfo) : Except String PrefixInfo :=
  match o with
  | .netError msg => .error msg
  | .decodeError msg => .error msg
  | .response doc =>
    if doc.Status ≠ "ok" then
      .error ("RIPEstat request failed with status " ++ doc.Status)
    else
      let out1 :=
        if out.Prefix.length = 0 then
          { out with Prefix :=
              if doc.Data.Is_Less_Specific then doc.Data.Resource
              else doc.Data.Block.Resource }
        else out
      let out2 :=
        match doc.Data.ASNs with
        | [] => out1
        | a :: _ => { out1 with ASN := a }
      let out3 :=
        match doc.Data.Locations with
        | [] => out2
        | c :: _ => { out2 with CountryCode := c }
      .ok out3

/-- The zero value of Go's `PrefixInfo` (`var out PrefixInfo`). -/
def zeroInfo : PrefixInfo := { Prefix := "", ASN := 0, CountryCode := "", Cached := 0 }

/-- `LookupRipestat` from ripestat.go: the prefix-overview call runs on the
zero record; on its success the geolocation call runs on the result with its
error discarded (the Go code ignores the second call's return value). -/
def LookupRipestat (o1 o2 : RipeOutcome) : Except String PrefixInfo :=
  match callRipestat o1 zeroInfo with
  | .error e => .error e
  | .ok out =>
    match callRipestat o2 out with
    | .error _ => .ok out
    | .ok out2 => .ok out2

/-- An IP address: a 32-bit or 128-bit number. Go detects the family with
`strings.Contains(addr.String(), ":")`; a 4-byte address prints as a dotted
quad (no colon) and a 16-byte one with colons, so the family is the
constructor here. -/
inductive IPAddr where
  | v4 (a : Nat)
  | v6 (a : Nat)
deriving DecidableEq

/-- Dotted-quad address from an IPv4 value, as built in the source tests and
URLs (`a.b.c.d`). -/
def ipv4 (b3 b2 b1 b0 : Nat) : IPAddr := .v4 (((b3 * 256 + b2) * 256 + b1) * 256 + b0)

/-- Go `addr.Mask(net.CIDRMask(L, bits))`: keep the top `L` of `bits` bits. -/
def maskLow (a bits L : Nat) : Nat := a / 2 ^ (bits - L) * 2 ^ (bits - L)

/-- Dotted-quad rendering of a 32-bit value, as Go's `net.IP.String`. -/
def v4String (a : Nat) : String :=
  toString (a / 2 ^ 24 % 256) ++ "." ++ toString (a / 2 ^ 16 % 256) ++ "." ++
    toString (a / 2 ^ 8 % 256) ++ "." ++ toString (a % 256)

/-- Hex digit character (lowercase), as Go's hex formatting. -/
def hexDigitChar (n : Nat) : Char :=
  if n < 10 then Char.ofNat (48 + n) else Char.ofNat (87 + n)

/-- Hex rendering without leading zeros of a 16-bit group. -/
def hex16 (n : Nat) : String :=
  if n < 16 then String.mk [hexDigitChar n]
  else if n < 256 then String.mk [hexDigitChar (n / 16), hexDigitChar (n % 16)]
  else if n < 4096 then
    String.mk [hexDigitChar (n / 256), hexDigitChar (n / 16 % 16), hexDigitChar (n % 16)]
  else
    String.mk [hexDigitChar (n / 4096 % 16), hexDigitChar (n / 256 % 16),
      hexDigitChar (n / 16 % 16), hexDigitChar (n % 16)]

/-- Colon-separated groups of a 128-bit value. Models Go's IPv6 text form in
full (uncompressed) notation; the stdlib formatter additionally compresses a
zero run with `::`, a collaborator detail no claim evaluates (all concrete
keys in this development are IPv4). -/
def v6String (a : Nat) : String :=
  String.intercalate ":"
    ((List.range 8).map (fun g => hex16 (a / 2 ^ (16 * (7 - g)) % 65536)))

/-- Address bit width per family (32 or 128), as chosen in `lookup`. -/
def addrBits : IPAddr → Nat
  | .v4 _ => 32
  | .v6 _ => 128

/-- Starting probe length per family, as chosen in `lookup`: /24 for IPv4,
/48 for IPv6. -/
def startLen : IPAddr → Nat
  | .v4 _ => 24
  | .v6 _ => 48

/-- The CIDR string of the masked network probed at length `L`:
`net.IPNet{addr.Mask(mask), mask}.String()`. -/
def ipKey (addr : IPAddr) (L : Nat) : String :=
  match addr with
  | .v4 a => v4String (maskLow a 32 L) ++ "/" ++ toString L
  | .v6 a => v6String (maskLow a 128 L) ++ "/" ++ toString L

/-- The list `[n, n-1, ..., 1]`: the loop `for i := n; i > 0; i--`. -/
def downFrom : Nat → List Nat
  | 0 => []
  | n + 1 => (n + 1) :: downFrom n

/-- The sequence of map keys the descent probes for an address, most
specific first. -/
def probeKeys (addr : IPAddr) : List String :=
  (downFrom (startLen addr)).map (ipKey addr)

/-- `PrefixCache` from the source: the prefix-string map plus the configured
expiry in seconds. The `sync.RWMutex` and the limiter channel guard
concurrent interleavings and are modelled separately (see `LimStep`). -/
structure PrefixCache where
  Data : List (String × PrefixInfo)
  expiry : Int
deriving DecidableEq

/-- The probe loop of `PrefixCache.lookup` (canid.go): walk the keys; a
present entry older than `expiry` is deleted and the walk continues; a
present fresh entry ends the walk as a hit. Returns the map as mutated by
the deletions together with the hit, if any. -/
def lookupScan (expiry now : Int) :
    List (String × PrefixInfo) → List String →
      List (String × PrefixInfo) × Option PrefixInfo
  | data, [] => (data, none)
  | data, k :: rest =>
    match alookup data k with
    | some e =>
      if now - e.Cached > expiry then lookupScan expiry now (aerase data k) rest
      else (data, some e)
    | none => lookupScan expiry now data rest

/-- `PrefixCache.lookup` from canid.go. The backend outcome (the value
`lookupRipestat(addr)` would produce) is an explicit argument; the code
consults it exactly once, on the full-descent-miss path. On a hit the cache
keeps only the deletions made by the walk; on backend success the record is
stamped `Cached = now` and inserted under its own `Prefix` field. -/
def PrefixCache.lookup (cache : PrefixCache) (now : Int)
    (backend : Except String PrefixInfo) (addr : IPAddr) :
    PrefixCache × Except String PrefixInfo :=
  match lookupScan cache.expiry now cache.Data (probeKeys addr) with
  | (data1, some e) => ({ cache with Data := data1 }, .ok e)
  | (data1, none) =>
    match backend with
    | .error e => ({ cache with Data := data1 }, .error e)
    | .ok out =>
      let stamped := { out with Cached := now }
      ({ cache with Data := ainsert data1 stamped.Prefix stamped }, .ok stamped)

/-- The probe loop of `PrefixCache.Lookup` (canid/main.go revision): same
walk, except that on an expired entry it deletes and `break`s straight to
the backend instead of continuing the descent. -/
def lookupScanB (expiry now : Int) :
    List (String × PrefixInfo) → List String →
      List (String × PrefixInfo) × Option PrefixInfo
  | data, [] => (data, none)
  | data, k :: rest =>
    match alookup data k with
    | some e =>
      if now - e.Cached > expiry then (aerase data k, none)
      else (data, some e)
    | none => lookupScanB expiry now data rest

/-- `PrefixCache.Lookup` from the canid/main.go revision (the variant the
`canid` package's `AddressCache` precaches through): as `lookup` but with
the breaking scan. -/
def PrefixCache.Lookup (cache : PrefixCache) (now : Int)
    (backend : Except String PrefixInfo) (addr : IPAddr) :
    PrefixCache × Except String PrefixInfo :=
  match lookupScanB cache.expiry now cache.Data (probeKeys addr) with
  | (data1, some e) => ({ cache with Data := data1 }, .ok e)
  | (data1, none) =>
    match backend with
    | .error e => ({ cache with Data := data1 }, .error e)
    | .ok out =>
      let stamped := { out with Cached := now }
      ({ cache with Data := ainsert data1 stamped.Prefix stamped }, .ok stamped)

/-- `AddressInfo` from addresscache.go. -/
structure AddressInfo where
  Name : String
  Addresses : List IPAddr
  Cached : Int
deriving DecidableEq

/-- `AddressCache` from addresscache.go: the name map and expiry. The shared
`*PrefixCache` reference is threaded through `Lookup` explicitly (it may be
nil, hence `Option`). -/
structure AddressCache where
  Data : List (String × AddressInfo)
  expiry : Int
deriving DecidableEq

/-- The precache loop of `AddressCache.Lookup`: `cache.prefixes.Lookup(addr)`
for every resolved address in order, keeping only the mutated prefix cache
(both result and error are discarded). `backends` gives the RIPEstat outcome
each address's backend call would produce. -/
def precacheAll (now : Int) (backends : IPAddr → Except String PrefixInfo) :
    PrefixCache → List IPAddr → PrefixCache
  | pc, [] => pc
  | pc, a :: rest =>
    precacheAll now backends (PrefixCache.Lookup pc now (backends a) a).1 rest

/-- The miss path of `AddressCache.Lookup` (addresscache.go): resolve the
name; on success store the addresses and precache their prefixes through the
shared prefix cache when present; on failure store an empty address list and
drop the error (`err = nil`). Either way stamp `Cached = now`, insert under
the name, and return the record. -/
def AddressCache.lookupMiss (cache : AddressCache) (pfxc : Option PrefixCache)
    (now : Int) (resolver : Except String (List IPAddr))
    (backends : IPAddr → Except String PrefixInfo) (name : String) :
    AddressCache × Option PrefixCache × AddressInfo :=
  match resolver with
  | .ok addrs =>
    let out : AddressInfo := { Name := name, Addresses := addrs, Cached := now }
    let pfxc2 :=
      match pfxc with
      | some pc => some (precacheAll now backends pc addrs)
      | none => none
    ({ cache with Data := ainsert cache.Data name out }, pfxc2, out)
  | .error _ =>
    let out : AddressInfo := { Name := name, Addresses := [], Cached := now }
    ({ cache with Data := ainsert cache.Data name out }, pfxc, out)

/-- `AddressCache.Lookup` from addresscache.go: a present fresh entry is a
hit; a present stale entry is deleted and the miss path runs; an absent name
runs the miss path. The function returns no error (its Go signature has
none): resolution failure is cached as an empty record. -/
def AddressCache.Lookup (cache : AddressCache) (pfxc : Option PrefixCache)
    (now : Int) (resolver : Except String (List IPAddr))
    (backends : IPAddr → Except String PrefixInfo) (name : String) :
    AddressCache × Option PrefixCache × AddressInfo :=
  match alookup cache.Data name with
  | some out =>
    if now - out.Cached > cache.expiry then
      AddressCache.lookupMiss { cache with Data := aerase cache.Data name }
        pfxc now resolver backends name
    else (cache, pfxc, out)
  | none => AddressCache.lookupMiss cache pfxc now resolver backends name

/-- Specification-level reading of the probe walk, on the unmutated map: the
first probed key holding a fresh (non-expired) entry. Used to state theorems
about `lookupScan`; `lookupScan_snd` proves the two agree. -/
def firstHit (expiry now : Int) (data : List (String × PrefixInfo)) :
    List String → Option PrefixInfo
  | [] => none
  | k :: rest =>
    match alookup data k with
    | some e =>
      if now - e.Cached > expiry then firstHit expiry now data rest else some e
    | none => firstHit expiry now data rest

/-- State of the backend concurrency limiter (`backend_limiter chan struct{}`
of capacity `cap`) together with the population of lookups at the backend
call site, counted by phase: not yet at the channel send, between send and
receive (backend call in flight), and past the receive. `slots` is the
number of tokens in the channel. -/
structure LimState where
  waiting : Nat
  calling : Nat
  finished : Nat
  slots : Nat
deriving DecidableEq

/-- Interleaving semantics of the limiter discipline in the miss path:
`acquire` is the channel send `backend_limiter <- struct{}{}`, enabled only
while the channel holds fewer than `cap` tokens (otherwise the send blocks);
`finish` is the backend call completing with outcome `ok` (success or
failure — the receive `<-backend_limiter` runs before the error check, so
both outcomes release the slot). -/
inductive LimStep (cap : Nat) : LimState → LimState → Prop where
  | acquire (s : LimState) (hw : 0 < s.waiting) (hs : s.slots < cap) :
      LimStep cap s ⟨s.waiting - 1, s.calling + 1, s.finished, s.slots + 1⟩
  | finish (s : LimState) (ok : Bool) (hc : 0 < s.calling) :
      LimStep cap s ⟨s.waiting, s.calling - 1, s.finished + 1, s.slots - 1⟩

/-- Initial state: `n` lookups about to enter the miss path, empty channel. -/
def limInit (n : Nat) : LimState := ⟨n, 0, 0, 0⟩

/-- Reachability under interleaved limiter steps. -/
def LimReachable (cap n : Nat) (s : LimState) : Prop :=
  Relation.ReflTransGen (LimStep cap) (limInit n) s

/-- A fully populated record, as produced by an earlier successful backend
response, used to probe the record-merge behaviour. -/
def c1Out : PrefixInfo :=
  { Prefix := "10.0.0.0/8", ASN := 64500, CountryCode := "DE", Cached := 0 }

/-- A later successful RIPEstat response that supplies an ASN and a country
code of its own. -/
def c1Doc : RipeStatResponse :=
  { Status := "ok",
    Data := { Resource := "192.0.2.0/24", Is_Less_Specific := true,
              ASNs := [64511], Locations := ["FR"],
              Block := { Resource := "192.0.0.0/16" } } }

/-- A fresh cached record for 198.51.100.0/24 (stored at second 500). -/
def demoE24 : PrefixInfo :=
  { Prefix := "198.51.100.0/24", ASN := 64496, CountryCode := "GB", Cached := 500 }

/-- A prefix cache holding exactly the 198.51.100.0/24 record, expiry 600 s. -/
def demoCache : PrefixCache := { Data := [("198.51.100.0/24", demoE24)], expiry := 600 }

/-- A stale record at the /24 probe key of 198.51.100.200 (stored at 0). -/
def c2Stale : PrefixInfo :=
  { Prefix := "198.51.100.0/24", ASN := 64496, CountryCode := "GB", Cached := 0 }

/-- A fresh record at the /16 probe key of 198.51.100.200 (stored at 900). -/
def c2Fresh : PrefixInfo :=
  { Prefix := "198.51.0.0/16", ASN := 64497, CountryCode := "GB", Cached := 900 }

/-- A cache holding the stale /24 entry and the fresh /16 entry, expiry
600 s: at second 1000 the /24 probe is expired and the /16 probe fresh. -/
def c2Cache : PrefixCache :=
  { Data := [("198.51.100.0/24", c2Stale), ("198.51.0.0/16", c2Fresh)],
    expiry := 600 }

/-- A record for 198.51.100.0/24 stored at second 0: expired by second 1000
under a 600 s expiry. -/
def expiredE24 : PrefixInfo :=
  { Prefix := "198.51.100.0/24", ASN := 64496, CountryCode := "GB", Cached := 0 }

/-- A prefix cache holding exactly the expired 198.51.100.0/24 record. -/
def expiredCache : PrefixCache :=
  { Data := [("198.51.100.0/24", expiredE24)], expiry := 600 }

/-- A successful prefix-overview response for the C10 scenario. -/
def c10Doc : RipeStatResponse :=
  { Status := "ok",
    Data := { Resource := "203.0.113.0/24", Is_Less_Specific := true,
              ASNs := [64501], Locations := [],
              Block := { Resource := "203.0.0.0/12" } } }

/-- Reading an association list after a deletion: the deleted key is gone,
every other key is untouched. -/
theorem alookup_aerase {α : Type} (m : List (String × α)) (k k2 : String) :
    alookup (aerase m k) k2 = if k2 = k then none else alookup m k2 := by
  induction m with
  | nil => simp [aerase, alookup]
  | cons p rest ih =>
    obtain ⟨k1, v⟩ := p
    by_cases h1 : k1 = k <;> by_cases h2 : k2 = k <;> by_cases h3 : k1 = k2 <;>
      simp_all [aerase, alookup]

/-- Reading an association list after an insertion: the inserted key holds
the new value, every other key is untouched. -/
theorem alookup_ainsert {α : Type} (m : List (String × α)) (k k2 : String) (v : α) :
    alookup (ainsert m k v) k2 = if k2 = k then some v else alookup m k2 := by
  simp only [ainsert, alookup]
  by_cases h : k = k2
  · subst h
    simp
  · rw [if_neg h, alookup_aerase, if_neg (fun hh => h hh.symm),
      if_neg (fun hh => h hh.symm)]

/-- Deleting an expired entry does not change the result of the pure probe
walk: an expired entry never becomes a hit, and absence continues the walk
just as an expired entry does. -/
theorem firstHit_aerase_expired (E N : Int) (data : List (String × PrefixInfo))
    (k : String) (e : PrefixInfo) (hk : alookup data k = some e)
    (hexp : N - e.Cached > E) (keys : List String) :
    firstHit E N (aerase data k) keys = firstHit E N data keys := by
  induction keys with
  | nil => rfl
  | cons k1 rest ih =>
    by_cases h1 : k1 = k
    · subst h1
      have h2 : alookup (aerase data k1) k1 = none := by
        rw [alookup_aerase, if_pos rfl]
      simp only [firstHit, h2, hk, if_pos hexp, ih]
    · simp only [firstHit, alookup_aerase, if_neg h1, ih]

/-- The hit the destructive walk reports is the one the pure probe walk
finds on the original map. -/
theorem lookupScan_snd (E N : Int) (keys : List String) :
    ∀ data, (lookupScan E N data keys).2 = firstHit E N data keys := by
  induction keys with
  | nil => intro data; rfl
  | cons k rest ih =>
    intro data
    simp only [lookupScan, firstHit]
    cases hk : alookup data k with
    | none => exact ih data
    | some e =>
      by_cases hexp : N - e.Cached > E
      · simp only [if_pos hexp, ih, firstHit_aerase_expired E N data k e hk hexp]
      · simp only [if_neg hexp]

/-- The walk inserts nothing: a key present afterwards was present before,
with the same record. -/
theorem lookupScan_fst_some (E N : Int) (keys : List String) :
    ∀ data k v, alookup (lookupScan E N data keys).1 k = some v →
      alookup data k = some v := by
  induction keys with
  | nil => intro data k v h; exact h
  | cons k1 rest ih =>
    intro data k v h
    revert h
    simp only [lookupScan]
    cases hk : alookup data k1 with
    | none => exact ih data k v
    | some e =>
      by_cases hexp : N - e.Cached > E
      · simp only [if_pos hexp]
        intro h
        have h2 := ih _ k v h
        rw [alookup_aerase] at h2
        by_cases hkk : k = k1
        · rw [if_pos hkk] at h2; exact absurd h2 (by simp)
        · rwa [if_neg hkk] at h2
      · simp only [if_neg hexp]; intro h; exact h

/-- The walk never resurrects a key: an absent key stays absent. -/
theorem lookupScan_fst_absent (E N : Int) (keys : List String) :
    ∀ data k, alookup data k = none →
      alookup (lookupScan E N data keys).1 k = none := by
  induction keys with
  | nil => intro data k h; exact h
  | cons k1 rest ih =>
    intro data k h
    simp only [lookupScan]
    cases hk : alookup data k1 with
    | none => exact ih data k h
    | some e =>
      by_cases hexp : N - e.Cached > E
      · simp only [if_pos hexp]
        refine ih _ k ?_
        rw [alookup_aerase]
        by_cases hkk : k = k1
        · rw [if_pos hkk]
        · rw [if_neg hkk]; exact h
      · simp only [if_neg hexp]; exact h

/-- The walk only removes expired entries: a key present before and absent
afterwards held a record past its expiry. -/
theorem lookupScan_fst_removed_expired (E N : Int) (keys : List String) :
    ∀ data k v, alookup data k = some v →
      alookup (lookupScan E N data keys).1 k = none →
      N - v.Cached > E := by
  induction keys with
  | nil =>
    intro data k v h1 h2
    exact absurd (h1.symm.trans h2) (by simp)
  | cons k1 rest ih =>
    intro data k v h1 h2
    revert h2
    simp only [lookupScan]
    cases hk : alookup data k1 with
    | none => exact ih data k v h1
    | some e =>
      by_cases hexp : N - e.Cached > E
      · simp only [if_pos hexp]
        intro h2
        by_cases hkk : k = k1
        · subst hkk
          rw [h1] at hk
          cases hk
          exact hexp
        · refine ih _ k v ?_ h2
          rw [alookup_aerase, if_neg hkk]
          exact h1
      · simp only [if_neg hexp]
        intro h2
        exact absurd (h1.symm.trans h2) (by simp)

/-- The pure probe walk over a concatenation: the second part is consulted
only when the first finds no fresh entry. -/
theorem firstHit_append (E N : Int) (data : List (String × PrefixInfo))
    (xs ys : List String) :
    firstHit E N data (xs ++ ys) =
      match firstHit E N data xs with
      | some e => some e
      | none => firstHit E N data ys := by
  induction xs with
  | nil => rfl
  | cons k rest ih =>
    simp only [List.cons_append, firstHit]
    cases hk : alookup data k with
    | none => exact ih
    | some e =>
      by_cases hexp : N - e.Cached > E
      · simp only [if_pos hexp]
        exact ih
      · simp only [if_neg hexp]

/-- A key probed (with an expired entry) before any fresh hit is erased by
the destructive walk. -/
theorem lookupScan_erased (E N : Int) (xs : List String) :
    ∀ data k e ys, firstHit E N data xs = none →
      alookup data k = some e → N - e.Cached > E →
      alookup (lookupScan E N data (xs ++ k :: ys)).1 k = none := by
  induction xs with
  | nil =>
    intro data k e ys _ hk hexp
    simp only [List.nil_append, lookupScan, hk, if_pos hexp]
    exact lookupScan_fst_absent E N ys _ k (by rw [alookup_aerase, if_pos rfl])
  | cons x rest ih =>
    intro data k e ys hnone hk hexp
    revert hnone
    simp only [List.cons_append, lookupScan, firstHit]
    cases hx : alookup data x with
    | none => exact fun hnone => ih data k e ys hnone hk hexp
    | some ex =>
      by_cases hexpx : N - ex.Cached > E
      · simp only [if_pos hexpx]
        intro hnone
        by_cases hkx : k = x
        · subst hkx
          exact lookupScan_fst_absent E N _ _ k (by rw [alookup_aerase, if_pos rfl])
        · refine ih _ k e ys ?_ ?_ hexp
          · rw [firstHit_aerase_expired E N data x ex hx hexpx]
            exact hnone
          · rw [alookup_aerase, if_neg hkx]
            exact hk
      · simp only [if_neg hexpx]
        intro hnone
        exact absurd hnone (by simp)

/-- C1: counterexample. Passing an already fully populated record through
the record-merge function `callRipestat` a second time, with a successful
response that supplies an ASN and a country code, overwrites both populated
fields: ASN 64500 becomes 64511 and country "DE" becomes "FR" (only
`Prefix` is guarded by the emptiness check). The claim's "a later call must
not overwrite an already-populated `asn` or `countryCode`" is therefore
false of the code. -/
theorem claim_C1_counterexample :
    callRipestat (RipeOutcome.response c1Doc) c1Out =
      Except.ok { Prefix := "10.0.0.0/8", ASN := 64511, CountryCode := "FR",
                  Cached := 0 } ∧
    c1Out.ASN = 64500 ∧ c1Out.CountryCode = "DE" := by
  decide

/-- C1 (amended): for every record passed through `callRipestat`, once
`Prefix` is non-empty it never changes; but `ASN` and `CountryCode` follow
last-value-wins, not first-value-wins: every successful response that
supplies at least one ASN (resp. location) overwrites the field even when
it is already populated, and a response that supplies none leaves it
unchanged; `Cached` is never touched by the merge. -/
theorem claim_C1_amended_merge
    (o : RipeOutcome) (doc : RipeStatResponse) (out res : PrefixInfo)
    (ho : o = RipeOutcome.response doc)
    (h : callRipestat o out = Except.ok res) :
    (out.Prefix.length ≠ 0 → res.Prefix = out.Prefix) ∧
    res.ASN = (match doc.Data.ASNs with | [] => out.ASN | a :: _ => a) ∧
    res.CountryCode =
      (match doc.Data.Locations with | [] => out.CountryCode | c :: _ => c) ∧
    res.Cached = out.Cached := by
  subst ho
  by_cases hst : doc.Status ≠ "ok"
  · simp only [callRipestat, if_pos hst] at h
    cases h
  · rcases hA : doc.Data.ASNs with _ | ⟨a, as⟩ <;>
      rcases hL : doc.Data.Locations with _ | ⟨c, cs⟩ <;>
      by_cases hp : out.Prefix.length = 0 <;>
      simp only [callRipestat, if_neg hst, hA, hL, if_pos hp, Except.ok.injEq] at h <;>
      first
      | (subst h; exact ⟨fun hne => absurd hp hne, rfl, rfl, rfl⟩)
      | (rw [if_neg hp] at h; subst h; exact ⟨fun _ => rfl, rfl, rfl, rfl⟩)

/-- C1 (amended) witness: on the concrete second call of the
counterexample, the populated `Prefix` survives unchanged. -/
theorem claim_C1_amended_merge_witness :
    ({ Prefix := "10.0.0.0/8", ASN := 64511, CountryCode := "FR", Cached := 0 } :
        PrefixInfo).Prefix = c1Out.Prefix :=
  (claim_C1_amended_merge (RipeOutcome.response c1Doc) c1Doc c1Out
    { Prefix := "10.0.0.0/8", ASN := 64511, CountryCode := "FR", Cached := 0 }
    rfl (by decide)).1 (by decide)

/-- C2: when the descent of `PrefixCache.lookup` probes a present but
expired entry at key `k0` (after earlier probes `ks1` that found nothing
fresh), the entry is evicted and the descent continues over the remaining
shorter lengths: the first fresh entry at a later probed key `k1` is
returned as the hit, the result is the same for every backend outcome (the
expired probe neither counts as a hit nor triggers an immediate backend
call), and `k0` is absent from the resulting map. -/
theorem claim_C2_expired_probe_evicts_and_continues
    (cache : PrefixCache) (now : Int) (addr : IPAddr)
    (ks1 ks2 ks3 : List String) (k0 k1 : String) (e0 e1 : PrefixInfo)
    (hsplit : probeKeys addr = ks1 ++ k0 :: (ks2 ++ k1 :: ks3))
    (h1 : firstHit cache.expiry now cache.Data ks1 = none)
    (h0 : alookup cache.Data k0 = some e0)
    (hexp : now - e0.Cached > cache.expiry)
    (h2 : firstHit cache.expiry now cache.Data ks2 = none)
    (hv : alookup cache.Data k1 = some e1)
    (hfresh : ¬ (now - e1.Cached > cache.expiry)) :
    ∀ backend, (cache.lookup now backend addr).2 = Except.ok e1 ∧
      alookup (cache.lookup now backend addr).1.Data k0 = none := by
  have hfh : firstHit cache.expiry now cache.Data (probeKeys addr) = some e1 := by
    rw [hsplit, firstHit_append, h1]
    show firstHit cache.expiry now cache.Data (k0 :: (ks2 ++ k1 :: ks3)) = some e1
    simp only [firstHit, h0, if_pos hexp, firstHit_append, h2]
    show firstHit cache.expiry now cache.Data (k1 :: ks3) = some e1
    simp only [firstHit, hv, if_neg hfresh]
  have hsnd := lookupScan_snd cache.expiry now (probeKeys addr) cache.Data
  rw [hfh] at hsnd
  have herase :
      alookup (lookupScan cache.expiry now cache.Data (probeKeys addr)).1 k0
        = none := by
    rw [hsplit]
    exact lookupScan_erased cache.expiry now ks1 cache.Data k0 e0
      (ks2 ++ k1 :: ks3) h1 h0 hexp
  intro backend
  cases hscan : lookupScan cache.expiry now cache.Data (probeKeys addr) with
  | mk d1 o =>
    rw [hscan] at hsnd herase
    simp only at hsnd
    subst hsnd
    simp only [PrefixCache.lookup, hscan]
    exact ⟨by trivial, herase⟩

/-- C2 witness: at second 1000 an address whose /24 probe finds the stale
entry and whose /16 probe finds the fresh one gets the fresh entry back
even from a failing backend, with the stale key evicted. -/
theorem claim_C2_expired_probe_evicts_and_continues_witness :
    (c2Cache.lookup 1000 (Except.error "backend down") (ipv4 198 51 100 200)).2
        = Except.ok c2Fresh ∧
    alookup (c2Cache.lookup 1000 (Except.error "backend down")
        (ipv4 198 51 100 200)).1.Data "198.51.100.0/24" = none :=
  claim_C2_expired_probe_evicts_and_continues c2Cache 1000 (ipv4 198 51 100 200)
    [] ((probeKeys (ipv4 198 51 100 200)).drop 1 |>.take 7)
    ((probeKeys (ipv4 198 51 100 200)).drop 9)
    "198.51.100.0/24" "198.51.0.0/16" c2Stale c2Fresh
    (by decide) rfl (by decide) (by decide) (by decide) (by decide) (by decide)
    (Except.error "backend down")

/-- C3: the descent implements longest-common-prefix matching. Generally,
whenever some probed key holds a fresh entry, the lookup returns the first
such (most specific) entry, with the same result for every backend outcome
(no backend call). By family, an IPv4 address starts the descent at /24
over 32 bits and an IPv6 address at /48 over 128 bits, probing the masked
network at each length down to 1. Concretely, with a cached entry for
198.51.100.0/24, a lookup of 198.51.100.200 hits that entry, while a lookup
of 198.51.101.1 misses every probed length and its result is the backend's:
a backend error surfaces, and a backend record is stamped and returned. -/
theorem claim_C3_longest_match_reverse_descent :
    (∀ (cache : PrefixCache) (now : Int) (addr : IPAddr) (e : PrefixInfo),
      firstHit cache.expiry now cache.Data (probeKeys addr) = some e →
      ∀ backend, (cache.lookup now backend addr).2 = Except.ok e) ∧
    (∀ a : Nat, startLen (IPAddr.v4 a) = 24 ∧ addrBits (IPAddr.v4 a) = 32 ∧
      probeKeys (IPAddr.v4 a) = (downFrom 24).map (ipKey (IPAddr.v4 a))) ∧
    (∀ a : Nat, startLen (IPAddr.v6 a) = 48 ∧ addrBits (IPAddr.v6 a) = 128 ∧
      probeKeys (IPAddr.v6 a) = (downFrom 48).map (ipKey (IPAddr.v6 a))) ∧
    (∀ backend, (demoCache.lookup 1000 backend (ipv4 198 51 100 200)).2
      = Except.ok demoE24) ∧
    ((demoCache.lookup 1000 (Except.error "unreachable") (ipv4 198 51 101 1)).2
      = Except.error "unreachable") ∧
    (∀ r : PrefixInfo, (demoCache.lookup 1000 (Except.ok r) (ipv4 198 51 101 1)).2
      = Except.ok { r with Cached := 1000 }) := by
  refine ⟨?_, fun a => ⟨rfl, rfl, rfl⟩, fun a => ⟨rfl, rfl, rfl⟩,
    fun backend => rfl, rfl, fun r => rfl⟩
  intro cache now addr e hfh backend
  have hsnd := lookupScan_snd cache.expiry now (probeKeys addr) cache.Data
  rw [hfh] at hsnd
  cases hscan : lookupScan cache.expiry now cache.Data (probeKeys addr) with
  | mk d1 o =>
    rw [hscan] at hsnd
    simp only at hsnd
    subst hsnd
    simp only [PrefixCache.lookup, hscan]

/-- C3 witness: the general first-fresh-hit conjunct applied to the
concrete cache and address of the spec's example. -/
theorem claim_C3_longest_match_reverse_descent_witness :
    (demoCache.lookup 1000 (Except.error "unreachable")
        (ipv4 198 51 100 200)).2 = Except.ok demoE24 :=
  claim_C3_longest_match_reverse_descent.1 demoCache 1000 (ipv4 198 51 100 200)
    demoE24 (by decide) (Except.error "unreachable")

/-- C4: when the full descent finds no fresh cached entry and the backend
call succeeds with record `r`, `PrefixCache.lookup` returns `r` stamped with
`Cached = now`, that very record is stored in the map under the
backend-reported canonical key `r.Prefix`, and no other key gains an entry
(every other surviving key held the same record before the call, so none of
the probed prefix-length strings is used as the storage key). -/
theorem claim_C4_insert_under_backend_key
    (cache : PrefixCache) (now : Int) (addr : IPAddr) (r : PrefixInfo)
    (hmiss : firstHit cache.expiry now cache.Data (probeKeys addr) = none) :
    (cache.lookup now (Except.ok r) addr).2 = Except.ok { r with Cached := now } ∧
    alookup (cache.lookup now (Except.ok r) addr).1.Data r.Prefix
      = some { r with Cached := now } ∧
    (∀ k v, k ≠ r.Prefix →
      alookup (cache.lookup now (Except.ok r) addr).1.Data k = some v →
      alookup cache.Data k = some v) := by
  have hsnd := lookupScan_snd cache.expiry now (probeKeys addr) cache.Data
  rw [hmiss] at hsnd
  cases hscan : lookupScan cache.expiry now cache.Data (probeKeys addr) with
  | mk d1 o =>
    rw [hscan] at hsnd
    simp only at hsnd
    subst hsnd
    simp only [PrefixCache.lookup, hscan]
    refine ⟨trivial, ?_, ?_⟩
    · rw [alookup_ainsert, if_pos rfl]
    · intro k v hk hkv
      rw [alookup_ainsert, if_neg hk] at hkv
      have := lookupScan_fst_some cache.expiry now (probeKeys addr) cache.Data k v
      rw [hscan] at this
      exact this hkv

/-- C4 witness: a concrete miss on the empty cache stores and returns the
backend record stamped at the lookup time. -/
theorem claim_C4_insert_under_backend_key_witness :
    (PrefixCache.lookup { Data := [], expiry := 600 } 1000
        (Except.ok { Prefix := "203.0.113.0/24", ASN := 64501,
                     CountryCode := "CH", Cached := 0 }) (ipv4 203 0 113 9)).2
      = Except.ok { Prefix := "203.0.113.0/24", ASN := 64501,
                    CountryCode := "CH", Cached := 1000 } :=
  (claim_C4_insert_under_backend_key { Data := [], expiry := 600 } 1000
    (ipv4 203 0 113 9)
    { Prefix := "203.0.113.0/24", ASN := 64501, CountryCode := "CH", Cached := 0 }
    (by decide)).1

/-- C5: counterexample. With a present but expired entry on a probed key and
a failing backend, the lookup does return the backend error unchanged and
inserts nothing, but the map is not left exactly as it was: the expired
entry has been evicted by the descent, so the resulting map differs from
the original. -/
theorem claim_C5_counterexample :
    (expiredCache.lookup 1000 (Except.error "backend down")
        (ipv4 198 51 100 200)).2 = Except.error "backend down" ∧
    (expiredCache.lookup 1000 (Except.error "backend down")
        (ipv4 198 51 100 200)).1.Data ≠ expiredCache.Data := by
  decide

/-- C5 (amended): when the full descent finds no fresh entry and the
backend fails, the lookup surfaces the backend error unchanged and inserts
nothing — every key present afterwards held the same record before — and
the only possible change to the map is the eviction of probed entries that
had already expired (an eviction that happens regardless of the backend
outcome); when no probed entry was expired the map is exactly unchanged. -/
theorem claim_C5_amended_error_no_insert
    (cache : PrefixCache) (now : Int) (addr : IPAddr) (msg : String)
    (hmiss : firstHit cache.expiry now cache.Data (probeKeys addr) = none) :
    (cache.lookup now (Except.error msg) addr).2 = Except.error msg ∧
    (∀ k v, alookup (cache.lookup now (Except.error msg) addr).1.Data k = some v →
      alookup cache.Data k = some v) ∧
    (∀ k v, alookup cache.Data k = some v →
      alookup (cache.lookup now (Except.error msg) addr).1.Data k = none →
      now - v.Cached > cache.expiry) := by
  have hsnd := lookupScan_snd cache.expiry now (probeKeys addr) cache.Data
  rw [hmiss] at hsnd
  cases hscan : lookupScan cache.expiry now cache.Data (probeKeys addr) with
  | mk d1 o =>
    rw [hscan] at hsnd
    simp only at hsnd
    subst hsnd
    simp only [PrefixCache.lookup, hscan]
    refine ⟨trivial, ?_, ?_⟩
    · intro k v hkv
      have := lookupScan_fst_some cache.expiry now (probeKeys addr) cache.Data k v
      rw [hscan] at this
      exact this hkv
    · intro k v hkv hnone
      have := lookupScan_fst_removed_expired cache.expiry now (probeKeys addr)
        cache.Data k v hkv
      rw [hscan] at this
      exact this hnone

/-- C5 witness for the amended statement: on the concrete expired cache with
a failing backend the error is surfaced unchanged. -/
theorem claim_C5_amended_error_no_insert_witness :
    (expiredCache.lookup 1000 (Except.error "backend down")
        (ipv4 198 51 100 200)).2 = Except.error "backend down" :=
  (claim_C5_amended_error_no_insert expiredCache 1000 (ipv4 198 51 100 200)
    "backend down" (by decide)).1

/-- C6: an address lookup whose resolution runs (the name is absent, or
present but expired) and fails returns no error — the Go signature of
`AddressCache.Lookup` has no error result at all — and instead caches and
returns a record for the name with an empty address sequence stamped
`Cached = now`; the shared prefix cache is untouched. The caller observes a
successful resolution with zero results. -/
theorem claim_C6_failed_resolution_cached_as_empty
    (cache : AddressCache) (pfxc : Option PrefixCache) (now : Int)
    (msg name : String) (backends : IPAddr → Except String PrefixInfo)
    (hmiss : alookup cache.Data name = none ∨
      ∃ old, alookup cache.Data name = some old ∧
        now - old.Cached > cache.expiry) :
    (AddressCache.Lookup cache pfxc now (Except.error msg) backends name).2.2
      = { Name := name, Addresses := [], Cached := now } ∧
    alookup (AddressCache.Lookup cache pfxc now (Except.error msg) backends
        name).1.Data name
      = some { Name := name, Addresses := [], Cached := now } ∧
    (AddressCache.Lookup cache pfxc now (Except.error msg) backends name).2.1
      = pfxc := by
  rcases hmiss with hmiss | ⟨old, hold, hexp⟩
  · simp only [AddressCache.Lookup, hmiss, AddressCache.lookupMiss]
    exact ⟨by trivial, by rw [alookup_ainsert, if_pos rfl], by trivial⟩
  · simp only [AddressCache.Lookup, hold, if_pos hexp, AddressCache.lookupMiss]
    exact ⟨by trivial, by rw [alookup_ainsert, if_pos rfl], by trivial⟩

/-- C6 witness: a failed resolution of a name absent from the cache is
cached and returned as the empty-address record. -/
theorem claim_C6_failed_resolution_cached_as_empty_witness :
    (AddressCache.Lookup { Data := [], expiry := 600 } none 1000
        (Except.error "no such host") (fun _ => Except.error "unused")
        "example.test").2.2
      = { Name := "example.test", Addresses := [], Cached := 1000 } :=
  (claim_C6_failed_resolution_cached_as_empty { Data := [], expiry := 600 }
    none 1000 "no such host" "example.test" (fun _ => Except.error "unused")
    (Or.inl rfl)).1

/-- C7: an address lookup whose resolution runs and succeeds with addresses
`addrs` caches and returns the record `{name, addrs, now}`; the shared
prefix cache becomes the fold of `PrefixCache.Lookup` over every resolved
address in order — one invocation per address on the shared instance,
keeping only the mutated cache, result and error discarded — and neither
the returned record nor the address-cache state depends on the prefix
backend outcomes, so a failing prefix lookup never fails the address lookup
or alters its record. -/
theorem claim_C7_precaches_all_resolved_addresses
    (cache : AddressCache) (pc : PrefixCache) (now : Int) (name : String)
    (addrs : List IPAddr) (backends : IPAddr → Except String PrefixInfo)
    (hmiss : alookup cache.Data name = none ∨
      ∃ old, alookup cache.Data name = some old ∧
        now - old.Cached > cache.expiry) :
    (AddressCache.Lookup cache (some pc) now (Except.ok addrs) backends
        name).2.2
      = { Name := name, Addresses := addrs, Cached := now } ∧
    alookup (AddressCache.Lookup cache (some pc) now (Except.ok addrs) backends
        name).1.Data name
      = some { Name := name, Addresses := addrs, Cached := now } ∧
    (AddressCache.Lookup cache (some pc) now (Except.ok addrs) backends
        name).2.1
      = some (precacheAll now backends pc addrs) ∧
    (∀ backends2,
      (AddressCache.Lookup cache (some pc) now (Except.ok addrs) backends2
          name).1
        = (AddressCache.Lookup cache (some pc) now (Except.ok addrs) backends
            name).1 ∧
      (AddressCache.Lookup cache (some pc) now (Except.ok addrs) backends2
          name).2.2
        = (AddressCache.Lookup cache (some pc) now (Except.ok addrs) backends
            name).2.2) := by
  rcases hmiss with hmiss | ⟨old, hold, hexp⟩
  · simp only [AddressCache.Lookup, hmiss, AddressCache.lookupMiss]
    exact ⟨by trivial, by rw [alookup_ainsert, if_pos rfl], by trivial,
      fun backends2 => ⟨by trivial, by trivial⟩⟩
  · simp only [AddressCache.Lookup, hold, if_pos hexp, AddressCache.lookupMiss]
    exact ⟨by trivial, by rw [alookup_ainsert, if_pos rfl], by trivial,
      fun backends2 => ⟨by trivial, by trivial⟩⟩

/-- C7 witness: resolving a fresh name to two addresses returns the record
holding both, independent of the prefix backend. -/
theorem claim_C7_precaches_all_resolved_addresses_witness :
    (AddressCache.Lookup { Data := [], expiry := 600 }
        (some { Data := [], expiry := 600 }) 1000
        (Except.ok [ipv4 10 0 0 1, ipv4 10 0 0 2])
        (fun _ => Except.error "prefix backend down") "example.test").2.2
      = { Name := "example.test",
          Addresses := [ipv4 10 0 0 1, ipv4 10 0 0 2], Cached := 1000 } :=
  (claim_C7_precaches_all_resolved_addresses { Data := [], expiry := 600 }
    { Data := [], expiry := 600 } 1000 "example.test"
    [ipv4 10 0 0 1, ipv4 10 0 0 2]
    (fun _ => Except.error "prefix backend down") (Or.inl rfl)).1

/-- C8: a record inserted at `t0` in a cache with expiry `E` is a hit on a
lookup at `t0+E-1` — returned unchanged with the cache and prefix cache
untouched, for every resolver, so no re-fetch happens — while a lookup at
`t0+E+1` treats it as expired: the entry is evicted and the resolver's
answer replaces it, stamped at the new time. -/
theorem claim_C8_expiry_boundary
    (cache : AddressCache) (name : String) (rec : AddressInfo) (t0 E : Int)
    (hE : cache.expiry = E) (hrec : alookup cache.Data name = some rec)
    (ht0 : rec.Cached = t0) :
    (∀ pfxc resolver backends,
      AddressCache.Lookup cache pfxc (t0 + E - 1) resolver backends name
        = (cache, pfxc, rec)) ∧
    (∀ pfxc addrs backends,
      (AddressCache.Lookup cache pfxc (t0 + E + 1) (Except.ok addrs) backends
          name).2.2
        = { Name := name, Addresses := addrs, Cached := t0 + E + 1 } ∧
      alookup (AddressCache.Lookup cache pfxc (t0 + E + 1) (Except.ok addrs)
          backends name).1.Data name
        = some { Name := name, Addresses := addrs, Cached := t0 + E + 1 }) := by
  constructor
  · intro pfxc resolver backends
    have hcond : ¬ (t0 + E - 1 - rec.Cached > cache.expiry) := by
      rw [hE, ht0]; omega
    simp only [AddressCache.Lookup, hrec, if_neg hcond]
  · intro pfxc addrs backends
    have hcond : t0 + E + 1 - rec.Cached > cache.expiry := by
      rw [hE, ht0]; omega
    simp only [AddressCache.Lookup, hrec, if_pos hcond, AddressCache.lookupMiss]
    exact ⟨by trivial, by rw [alookup_ainsert, if_pos rfl]⟩

/-- C8 witness: a record stored at second 100 under expiry 600 is still a
hit at second 699. -/
theorem claim_C8_expiry_boundary_witness :
    AddressCache.Lookup
        { Data := [("example.test",
            { Name := "example.test", Addresses := [], Cached := 100 })],
          expiry := 600 }
        none 699 (Except.error "resolver down") (fun _ => Except.error "x")
        "example.test"
      = ({ Data := [("example.test",
            { Name := "example.test", Addresses := [], Cached := 100 })],
           expiry := 600 }, none,
         { Name := "example.test", Addresses := [], Cached := 100 }) :=
  (claim_C8_expiry_boundary
    { Data := [("example.test",
        { Name := "example.test", Addresses := [], Cached := 100 })],
      expiry := 600 }
    "example.test" { Name := "example.test", Addresses := [], Cached := 100 }
    100 600 rfl rfl rfl).1 none (Except.error "resolver down")
    (fun _ => Except.error "x")

/-- C9: in the interleaving model of the limiter discipline, every state
reachable from `n` lookups entering the miss path satisfies: at most `cap`
backend calls are in flight, and the channel token count equals the number
of in-flight calls — completed calls, successful or failed, hold no
capacity, so a failing backend cannot leak slots. Moreover a release step
exists for either outcome of any in-flight call, and when `cap` calls are
in flight every possible step completes one of them — no acquire can fire,
so a lookup blocks until fewer than `cap` calls are outstanding. -/
theorem claim_C9_limiter_bound (cap n : Nat) (s : LimState)
    (h : LimReachable cap n s) :
    s.calling ≤ cap ∧ s.slots = s.calling ∧
    (∀ ok : Bool, 0 < s.calling →
      LimStep cap s ⟨s.waiting, s.calling - 1, s.finished + 1, s.slots - 1⟩) ∧
    (s.calling = cap → ∀ t, LimStep cap s t → t.calling = cap - 1) := by
  have hinv : s.slots = s.calling ∧ s.calling ≤ cap := by
    induction h with
    | refl => exact ⟨rfl, Nat.zero_le cap⟩
    | tail hreach hstep ih =>
      cases hstep with
      | acquire hw hs =>
        have hlt := hs
        rw [ih.1] at hlt
        dsimp only
        exact ⟨by rw [ih.1], by omega⟩
      | finish ok hc =>
        have h2 := ih.2
        dsimp only
        exact ⟨by rw [ih.1], by omega⟩
  refine ⟨hinv.2, hinv.1, fun ok hc => LimStep.finish s ok hc, ?_⟩
  intro hcap t hstep
  cases hstep with
  | acquire hw hs =>
    rw [hinv.1, hcap] at hs
    exact absurd hs (lt_irrefl cap)
  | finish _ hc =>
    dsimp only
    rw [hcap]

/-- C9 witness: with capacity 2 and 5 lookups, the state after two acquire
steps has exactly 2 calls in flight, within the bound. -/
theorem claim_C9_limiter_bound_witness :
    (LimState.mk 3 2 0 2).calling ≤ 2 ∧
    (LimState.mk 3 2 0 2).slots = (LimState.mk 3 2 0 2).calling :=
  have hr : LimReachable 2 5 (LimState.mk 3 2 0 2) :=
    Relation.ReflTransGen.tail
      (Relation.ReflTransGen.tail Relation.ReflTransGen.refl
        (LimStep.acquire (limInit 5) (by decide) (by decide)))
      (LimStep.acquire (LimState.mk 4 1 0 1) (by decide) (by decide))
  ⟨(claim_C9_limiter_bound 2 5 (LimState.mk 3 2 0 2) hr).1,
    (claim_C9_limiter_bound 2 5 (LimState.mk 3 2 0 2) hr).2.1⟩

/-- C10: `LookupRipestat` succeeds whenever the prefix-overview call
succeeds: the geolocation call's error is discarded, and in that case the
returned record is exactly the one the prefix-overview call produced
(carrying whatever `CountryCode` was or was not set, possibly empty). -/
theorem claim_C10_geoloc_error_discarded
    (o1 o2 : RipeOutcome) (out : PrefixInfo)
    (h1 : callRipestat o1 zeroInfo = Except.ok out) :
    (∀ msg, callRipestat o2 out = Except.error msg →
      LookupRipestat o1 o2 = Except.ok out) ∧
    (∃ r, LookupRipestat o1 o2 = Except.ok r) := by
  constructor
  · intro msg h2
    simp only [LookupRipestat, h1, h2]
  · cases h2 : callRipestat o2 out with
    | error e => exact ⟨out, by simp only [LookupRipestat, h1, h2]⟩
    | ok r2 => exact ⟨r2, by simp only [LookupRipestat, h1, h2]⟩

/-- C10 witness: a successful prefix-overview outcome followed by a
transport failure of the geolocation call still yields success, with an
empty country code. -/
theorem claim_C10_geoloc_error_discarded_witness :
    LookupRipestat (RipeOutcome.response c10Doc) (RipeOutcome.netError "no route")
      = Except.ok { Prefix := "203.0.113.0/24", ASN := 64501,
                    CountryCode := "", Cached := 0 } :=
  (claim_C10_geoloc_error_discarded (RipeOutcome.response c10Doc)
    (RipeOutcome.netError "no route")
    { Prefix := "203.0.113.0/24", ASN := 64501, CountryCode := "", Cached := 0 }
    (by decide)).1 "no route" rfl

end Canid
